import Mathlib

/-!
Verification of the fire-dept-mvp radio transcription system: a shallow
embedding of the frontend JavaScript (websocket message handling, system
start controls, URL configuration, Google Maps loader, ONEGEO building
lookup) and of the backend pipeline (controller, alert classifier,
transcript store, VAD) as documented in README_BACKEND.md and the system
specification, together with theorems settling the specification claims.
-/

namespace FireDept

/-! ## Websocket message handling (TranscriptionTab, handleWebSocketMessage) -/

/-- A live-channel message envelope as consumed by the frontend:
`{type: "transcript"|"alert"|"status", data: ...}`. The payload type is
abstract. -/
structure WsMessage (α : Type) where
  type : String
  data : α
deriving DecidableEq

/-- Embedding of `handleWebSocketMessage` from TranscriptionTab: a
"transcript" envelope appends its `data` to the transcripts list
(`[...prev, message.data]`); "alert" and "status" envelopes only log, and
unknown types only log, all leaving the transcripts list unchanged. -/
def handleWebSocketMessage {α : Type} (msg : WsMessage α) (prev : List α) : List α :=
  match msg.type with
  | "transcript" => prev ++ [msg.data]
  | "alert" => prev
  | "status" => prev
  | _ => prev

/-- Processing a stream of envelopes in arrival order. -/
def processMessages {α : Type} (msgs : List (WsMessage α)) (init : List α) : List α :=
  msgs.foldl (fun acc m => handleWebSocketMessage m acc) init

theorem handleWebSocketMessage_eq {α : Type} (msg : WsMessage α) (prev : List α) :
    handleWebSocketMessage msg prev =
      if msg.type = "transcript" then prev ++ [msg.data] else prev := by
  unfold handleWebSocketMessage
  rcases msg with ⟨t, d⟩
  by_cases h : t = "transcript"
  · subst h; simp
  · simp only [h, if_false]
    repeat' split
    all_goals simp_all

theorem processMessages_eq {α : Type} (msgs : List (WsMessage α)) (init : List α) :
    processMessages msgs init =
      init ++ (msgs.filter (fun m => m.type = "transcript")).map (fun m => m.data) := by
  induction msgs generalizing init with
  | nil => simp [processMessages]
  | cons m ms ih =>
    simp only [processMessages, List.foldl_cons] at *
    rw [ih (handleWebSocketMessage m init), handleWebSocketMessage_eq]
    by_cases h : m.type = "transcript" <;> simp [h, List.filter_cons]

/-- C1: the frontend live-channel handler appends the data of a
"transcript" envelope to the end of the transcripts list and leaves the
list unchanged on "alert", "status" and any other envelope type; over a
whole message stream the transcripts list is the initial list followed by
the transcript payloads in arrival order. -/
theorem websocket_transcript_append {α : Type} (msg : WsMessage α) (prev : List α)
    (msgs : List (WsMessage α)) (init : List α) :
    handleWebSocketMessage msg prev =
      (if msg.type = "transcript" then prev ++ [msg.data] else prev)
    ∧ processMessages msgs init =
        init ++ (msgs.filter (fun m => m.type = "transcript")).map (fun m => m.data) :=
  ⟨handleWebSocketMessage_eq msg prev, processMessages_eq msgs init⟩

/-! ## System start: controller (modelled from the spec) and frontend controls -/

/-- Priority tiers, ordered CRITICAL > HIGH > MEDIUM > LOW. -/
inductive Tier where
  | critical
  | high
  | medium
  | low
deriving DecidableEq, Repr

/-- Ordinal rank of a tier: CRITICAL > HIGH > MEDIUM > LOW. -/
def Tier.rank : Tier → Nat
  | .critical => 3
  | .high => 2
  | .medium => 1
  | .low => 0

/-- A configured radio channel (RADIO_CHANNELS entry in config.py). -/
structure Channel where
  id : String
  name : String
  priority : Tier
  enabled : Bool
deriving DecidableEq

/-- Controller state: running flag and the per-channel pipelines wired by
`start()` (identified by channel id). -/
structure ControllerState where
  running : Bool
  pipelines : List String
deriving DecidableEq

/-- Modelled from the spec: `SystemController.start()` (core code absent
from the repository; only its README and callers are present): idempotent —
if already running, reports "already_running" and performs no additional
wiring; otherwise instantiates one pipeline per enabled channel and reports
success. -/
def startController (cfg : List Channel) (s : ControllerState) : ControllerState × String :=
  if s.running then (s, "already_running")
  else ({ running := true, pipelines := (cfg.filter (fun c => c.enabled)).map (fun c => c.id) },
        "success")

/-- Embedding of `startSystem` in RadioSystemControls.jsx: the `isRunning`
flag after the start response arrives — both "success" and
"already_running" set it to true, any other status leaves it unchanged
(an error dialog is shown instead). -/
def startSystemIsRunning (respStatus : String) (isRunning : Bool) : Bool :=
  if respStatus = "success" ∨ respStatus = "already_running" then true else isRunning

/-- Embedding of `autoStartSystem` in TranscriptionTab: whether the start
endpoint is called, given whether the status request succeeded and the
`is_running` field it reported; when the status reports the system running
the function returns without starting. -/
def autoStartPostsStart (statusOk : Bool) (isRunning : Bool) : Bool :=
  if statusOk && isRunning then false else true

/-- C2: `start()` is idempotent — on a running system it returns
"already_running", performs no wiring and leaves the channel count
unchanged; the frontend treats both "success" and "already_running" as
the running state, and the auto-start path skips calling start exactly
when the status endpoint already reports the system running. -/
theorem start_idempotent (cfg : List Channel) (s : ControllerState)
    (h : s.running = true) :
    startController cfg s = (s, "already_running")
    ∧ (startController cfg s).1.pipelines.length = s.pipelines.length
    ∧ (∀ b : Bool, startSystemIsRunning "success" b = true
        ∧ startSystemIsRunning "already_running" b = true)
    ∧ (∀ ok run : Bool, autoStartPostsStart ok run = false ↔ (ok = true ∧ run = true)) := by
  refine ⟨?_, ?_, ?_, ?_⟩
  · simp [startController, h]
  · simp [startController, h]
  · intro b; constructor <;> simp [startSystemIsRunning]
  · intro ok run
    cases ok <;> cases run <;> simp [autoStartPostsStart]

theorem start_idempotent_holds :
    (ControllerState.running { running := true, pipelines := ["channel_1"] } = true)
    ∧ startController [] { running := true, pipelines := ["channel_1"] } =
        ({ running := true, pipelines := ["channel_1"] }, "already_running") :=
  ⟨rfl, (start_idempotent [] { running := true, pipelines := ["channel_1"] } rfl).1⟩

/-! ## Character-list string primitives

JavaScript `String.prototype.replace` with a string pattern replaces only
the FIRST occurrence of the pattern. We embed strings as `List Char` and
model that operation exactly. -/

/-- Character list, the embedding of a JavaScript string. -/
abbrev Chars := List Char

/-- `startsList p s` : `p` occurs at the very beginning of `s`. -/
def startsList : Chars → Chars → Bool
  | [], _ => true
  | _ :: _, [] => false
  | a :: p, b :: s => a == b && startsList p s

/-- `hasSub p s` : `p` occurs somewhere in `s` (JS `indexOf ≥ 0`). -/
def hasSub (p : Chars) : Chars → Bool
  | [] => startsList p []
  | c :: t => startsList p (c :: t) || hasSub p t

/-- JS `s.replace(p, r)` for a string pattern: replace the first
occurrence of `p` in `s` by `r`, leaving `s` unchanged when `p` does not
occur. -/
def replaceFirst (p r : Chars) : Chars → Chars
  | [] => if startsList p [] then r else []
  | c :: t =>
      if startsList p (c :: t) then r ++ (c :: t).drop p.length
      else c :: replaceFirst p r t

/-- Embedding of the `WS_URL` computation in frontend config:
`API_BASE_URL.replace('http://', 'ws://').replace('https://', 'wss://') + '/ws'`. -/
def wsUrlOf (api : Chars) : Chars :=
  replaceFirst "https://".toList "wss://".toList
    (replaceFirst "http://".toList "ws://".toList api) ++ "/ws".toList

theorem startsList_self_append (p s : Chars) : startsList p (p ++ s) = true := by
  induction p with
  | nil => rfl
  | cons a q ih => simp [startsList, ih]

theorem replaceFirst_self_append (p r s : Chars) (hp : p ≠ []) :
    replaceFirst p r (p ++ s) = r ++ s := by
  rcases p with _ | ⟨a, q⟩
  · exact absurd rfl hp
  · show replaceFirst (a :: q) r (a :: (q ++ s)) = r ++ s
    have h1 : startsList (a :: q) (a :: (q ++ s)) = true := startsList_self_append (a :: q) s
    simp only [replaceFirst, h1, if_true]
    have h2 : (a :: (q ++ s)).drop (a :: q).length = s := List.drop_left (a :: q) s
    rw [h2]

theorem replaceFirst_of_not_sub (p r s : Chars) (h : hasSub p s = false) :
    replaceFirst p r s = s := by
  induction s with
  | nil =>
    simp only [hasSub] at h
    simp [replaceFirst, h]
  | cons c t ih =>
    simp only [hasSub, Bool.or_eq_false_iff] at h
    simp [replaceFirst, h.1, ih h.2]

theorem hasSub_wsPre (rest : Chars) (h : hasSub "https://".toList rest = false) :
    hasSub "https://".toList ("ws://".toList ++ rest) = false := by
  have e1 : "ws://".toList = ['w', 's', ':', '/', '/'] := rfl
  have e2 : "https://".toList = ['h', 't', 't', 'p', 's', ':', '/', '/'] := rfl
  rw [e2] at h
  rw [e1, e2]
  simp [hasSub, startsList, h]

theorem hasSub_httpsPre (rest : Chars) (h : hasSub "http://".toList rest = false) :
    hasSub "http://".toList ("https://".toList ++ rest) = false := by
  have e1 : "https://".toList = ['h', 't', 't', 'p', 's', ':', '/', '/'] := rfl
  have e2 : "http://".toList = ['h', 't', 't', 'p', ':', '/', '/'] := rfl
  rw [e2] at h
  rw [e1, e2]
  simp [hasSub, startsList, h]

/-- C8 counterexample: for `API_BASE_URL = "https://h/http://p"` the first
`.replace('http://', 'ws://')` fires inside the PATH (JS replaces the first
occurrence anywhere, not the scheme prefix), so the produced WS_URL does
not preserve the host and path. -/
theorem wsUrl_not_path_preserving :
    wsUrlOf "https://h/http://p".toList = "wss://h/ws://p/ws".toList
    ∧ wsUrlOf "https://h/http://p".toList ≠
        "wss://".toList ++ "h/http://p".toList ++ "/ws".toList := by
  constructor
  · decide
  · decide

/-- C8 (amended): when the part of `API_BASE_URL` after its scheme prefix
contains no further occurrence of "http://" or "https://", `WS_URL` is the
corresponding websocket scheme followed by the untouched remainder and a
trailing "/ws". -/
theorem wsUrl_scheme_rewrite (rest : Chars)
    (h1 : hasSub "http://".toList rest = false)
    (h2 : hasSub "https://".toList rest = false) :
    wsUrlOf ("http://".toList ++ rest) = "ws://".toList ++ rest ++ "/ws".toList
    ∧ wsUrlOf ("https://".toList ++ rest) = "wss://".toList ++ rest ++ "/ws".toList := by
  constructor
  · unfold wsUrlOf
    rw [replaceFirst_self_append _ _ _ (by decide),
        replaceFirst_of_not_sub _ _ _ (hasSub_wsPre rest h2),
        List.append_assoc]
  · unfold wsUrlOf
    rw [replaceFirst_of_not_sub _ _ _ (hasSub_httpsPre rest h1),
        replaceFirst_self_append _ _ _ (by decide),
        List.append_assoc]

theorem wsUrl_scheme_rewrite_holds :
    (hasSub "http://".toList "example.com/api".toList = false
      ∧ hasSub "https://".toList "example.com/api".toList = false)
    ∧ wsUrlOf ("http://".toList ++ "example.com/api".toList) =
        "ws://".toList ++ "example.com/api".toList ++ "/ws".toList :=
  ⟨⟨by decide, by decide⟩,
    (wsUrl_scheme_rewrite "example.com/api".toList (by decide) (by decide)).1⟩

/-! ## AlertClassifier -/

/-- ASCII lowercasing of one character (JS `toLowerCase` on the ASCII
range used by the keyword table). -/
def asciiLower (c : Char) : Char :=
  if 'A' ≤ c ∧ c ≤ 'Z' then Char.ofNat (c.toNat + 32) else c

/-- Lowercase a transcript text. -/
def lowerChars (s : Chars) : Chars := s.map asciiLower

/-- The configured keyword → priority table: ALERT_KEYWORDS of
README_BACKEND.md with the documented priority levels (CRITICAL: mayday,
firefighter down, officer down; HIGH: emergency, urgent, evacuate;
MEDIUM: injury, help; LOW: default for the remaining keywords). -/
def alertTable : List (String × Tier) :=
  [("mayday", .critical), ("firefighter down", .critical), ("officer down", .critical),
   ("emergency", .high), ("urgent", .high), ("evacuate", .high),
   ("injury", .medium), ("help", .medium),
   ("code red", .low), ("collapse", .low)]

/-- Result of the alert classifier. -/
structure ClassifyResult where
  is_alert : Bool
  matched_keywords : List String
  priority : Tier
deriving DecidableEq

/-- Higher-ranked of two tiers (left-biased on ties). -/
def tierMax (a b : Tier) : Tier := if a.rank < b.rank then b else a

/-- Modelled from the spec: `core/alert_system.py` (absent from the
repository; only README_BACKEND.md documents it): a pure, case-insensitive
substring scan of the transcript text against the keyword table, returning
the alert flag, all matched keywords, and the highest matched tier,
defaulting to the channel's configured priority when nothing matches. -/
def classifyTranscript (text : Chars) (channelPriority : Tier) : ClassifyResult :=
  let lt := lowerChars text
  let matched := alertTable.filter (fun kp => hasSub kp.1.toList lt)
  { is_alert := !matched.isEmpty
    matched_keywords := matched.map (fun kp => kp.1)
    priority :=
      if matched.isEmpty then channelPriority
      else (matched.map (fun kp => kp.2)).foldl tierMax .low }

theorem tierMax_cases (a b : Tier) : tierMax a b = a ∨ tierMax a b = b := by
  unfold tierMax; split
  · exact Or.inr rfl
  · exact Or.inl rfl

theorem rank_le_tierMax_left (a b : Tier) : a.rank ≤ (tierMax a b).rank := by
  unfold tierMax; split <;> omega

theorem rank_le_tierMax_right (a b : Tier) : b.rank ≤ (tierMax a b).rank := by
  unfold tierMax; split
  · exact Nat.le_refl _
  · omega

theorem foldl_tierMax_le (l : List Tier) (a : Tier) :
    a.rank ≤ (l.foldl tierMax a).rank ∧ ∀ x ∈ l, x.rank ≤ (l.foldl tierMax a).rank := by
  induction l generalizing a with
  | nil => simp
  | cons b t ih =>
    obtain ⟨h1, h2⟩ := ih (tierMax a b)
    refine ⟨Nat.le_trans (rank_le_tierMax_left a b) h1, ?_⟩
    intro x hx
    cases hx with
    | head => exact Nat.le_trans (rank_le_tierMax_right a b) h1
    | tail _ hx2 => exact h2 x hx2

theorem foldl_tierMax_mem (l : List Tier) (a : Tier) :
    l.foldl tierMax a = a ∨ l.foldl tierMax a ∈ l := by
  induction l generalizing a with
  | nil => exact Or.inl rfl
  | cons b t ih =>
    rcases ih (tierMax a b) with h | h
    · rcases tierMax_cases a b with hc | hc
      · exact Or.inl (by rw [List.foldl_cons, h, hc])
      · exact Or.inr (by rw [List.foldl_cons, h, hc]; exact List.mem_cons_self b t)
    · exact Or.inr (List.mem_cons_of_mem b h)

theorem rank_zero_eq_low (x : Tier) (h : x.rank ≤ 0) : x = .low := by
  cases x <;> simp_all [Tier.rank]

/-- The matched keyword/tier pairs for a text. -/
def matchedPairs (text : Chars) : List (String × Tier) :=
  alertTable.filter (fun kp => hasSub kp.1.toList (lowerChars text))

theorem classify_is_alert (text : Chars) (pr : Tier) :
    (classifyTranscript text pr).is_alert = !(matchedPairs text).isEmpty := rfl

theorem classify_matched (text : Chars) (pr : Tier) :
    (classifyTranscript text pr).matched_keywords =
      (matchedPairs text).map (fun kp => kp.1) := rfl

theorem classify_priority (text : Chars) (pr : Tier) :
    (classifyTranscript text pr).priority =
      if (matchedPairs text).isEmpty then pr
      else ((matchedPairs text).map (fun kp => kp.2)).foldl tierMax .low := rfl

/-- C4: the alert classifier is a pure case-insensitive substring scan:
`is_alert` holds iff some configured keyword occurs in the lowercased
text, `matched_keywords` are exactly the matching keywords, the priority
is a matching keyword's tier dominating every matching tier (highest
tier) when there is a match and the channel's configured priority
otherwise; concretely, "mayday, firefighter down" is a CRITICAL alert
matching both "mayday" and "firefighter down", and "all units clear" is
no alert. -/
theorem alertClassifier_spec (text : Chars) (pr : Tier) :
    ((classifyTranscript text pr).is_alert = true ↔
      ∃ kp ∈ alertTable, hasSub kp.1.toList (lowerChars text) = true)
    ∧ (∀ k : String, k ∈ (classifyTranscript text pr).matched_keywords ↔
        ∃ tr : Tier, (k, tr) ∈ alertTable ∧ hasSub k.toList (lowerChars text) = true)
    ∧ ((classifyTranscript text pr).is_alert = false →
        (classifyTranscript text pr).matched_keywords = []
        ∧ (classifyTranscript text pr).priority = pr)
    ∧ ((classifyTranscript text pr).is_alert = true →
        ∃ kp ∈ alertTable, hasSub kp.1.toList (lowerChars text) = true
          ∧ (classifyTranscript text pr).priority = kp.2
          ∧ ∀ kq ∈ alertTable, hasSub kq.1.toList (lowerChars text) = true →
              kq.2.rank ≤ (classifyTranscript text pr).priority.rank)
    ∧ (classifyTranscript "mayday, firefighter down".toList pr).is_alert = true
    ∧ (classifyTranscript "mayday, firefighter down".toList pr).priority = .critical
    ∧ "mayday" ∈ (classifyTranscript "mayday, firefighter down".toList pr).matched_keywords
    ∧ "firefighter down" ∈
        (classifyTranscript "mayday, firefighter down".toList pr).matched_keywords
    ∧ (classifyTranscript "all units clear".toList pr).is_alert = false := by
  have halert : ∀ t : Chars, (classifyTranscript t pr).is_alert = true ↔
      ∃ kp ∈ alertTable, hasSub kp.1.toList (lowerChars t) = true := by
    intro t
    rw [classify_is_alert, Bool.not_eq_eq_eq_not, Bool.not_true, List.isEmpty_eq_false,
        Ne, matchedPairs, List.filter_eq_nil_iff]
    push_neg
    simp
  refine ⟨halert text, ?_, ?_, ?_, ?_, ?_, ?_, ?_, ?_⟩
  · intro k
    rw [classify_matched, matchedPairs]
    simp only [List.mem_map, List.mem_filter]
    constructor
    · rintro ⟨⟨k2, t2⟩, ⟨hmem, hsub⟩, hk⟩
      subst hk
      exact ⟨t2, hmem, hsub⟩
    · rintro ⟨tr, hmem, hsub⟩
      exact ⟨(k, tr), ⟨hmem, hsub⟩, rfl⟩
  · intro hno
    rw [classify_is_alert, Bool.not_eq_eq_eq_not, Bool.not_false] at hno
    rw [classify_matched, classify_priority, hno]
    have : matchedPairs text = [] := List.isEmpty_iff.mp hno
    simp [this]
  · intro hyes
    rw [classify_is_alert, Bool.not_eq_eq_eq_not, Bool.not_true, List.isEmpty_eq_false] at hyes
    have hne : matchedPairs text ≠ [] := hyes
    rw [classify_priority, if_neg (by simpa [List.isEmpty_iff] using hne)]
    set tiers := (matchedPairs text).map (fun kp => kp.2) with htiers
    have hmem := foldl_tierMax_mem tiers .low
    have hle := foldl_tierMax_le tiers .low
    have hfound : ∃ kp ∈ matchedPairs text, kp.2 = tiers.foldl tierMax .low := by
      rcases hmem with hlow | hmem
      · rcases List.exists_mem_of_ne_nil _ hne with ⟨kp, hkp⟩
        have hkpt : kp.2 ∈ tiers := by rw [htiers]; exact List.mem_map_of_mem _ hkp
        have := hle.2 kp.2 hkpt
        rw [hlow] at this ⊢
        have : kp.2 = Tier.low := rank_zero_eq_low kp.2 (by simpa [Tier.rank] using this)
        exact ⟨kp, hkp, this⟩
      · rw [htiers] at hmem
        rcases List.mem_map.mp hmem with ⟨kp, hkp, hkp2⟩
        exact ⟨kp, hkp, hkp2⟩
    rcases hfound with ⟨kp, hkp, hkpeq⟩
    have hkpm : kp ∈ alertTable ∧ hasSub kp.1.toList (lowerChars text) = true := by
      rw [matchedPairs] at hkp
      exact List.mem_filter.mp hkp
    refine ⟨kp, hkpm.1, hkpm.2, hkpeq.symm, ?_⟩
    intro kq hkq hkqsub
    have hkqmem : kq ∈ matchedPairs text := by
      rw [matchedPairs]
      exact List.mem_filter.mpr ⟨hkq, hkqsub⟩
    have : kq.2 ∈ tiers := by rw [htiers]; exact List.mem_map_of_mem _ hkqmem
    exact hle.2 kq.2 this
  · rw [halert "mayday, firefighter down".toList]
    exact ⟨("mayday", .critical), by decide, by decide⟩
  · rw [classify_priority, if_neg (by decide)]
    decide
  · rw [classify_matched]; decide
  · rw [classify_matched]; decide
  · rw [classify_is_alert]
    decide

/-! ## TranscriptStore -/

/-- A persisted transcript record with exactly the documented fields
(timestamps are UTC capture times modelled as seconds since the epoch). -/
structure StoredRecord where
  timestamp : Nat
  channel : String
  text : String
  confidence : ℚ
  alert : Bool
  alert_keywords : List String
deriving DecidableEq

/-- Calendar-date partition key of a capture timestamp (days since the
epoch). -/
def dateOf (t : Nat) : Nat := t / 86400

/-- A JSON value, the shape of one serialized JSONL line. -/
inductive Json where
  | str (s : String)
  | num (q : ℚ)
  | bool (b : Bool)
  | arr (l : List Json)
  | obj (fields : List (String × Json))

/-- Modelled from the spec: the JSONL serialization of `utils/storage.py`
(absent from the repository; README_BACKEND.md documents the format): one
JSON object per record with exactly the documented fields. -/
def recordToJson (r : StoredRecord) : Json :=
  .obj [("timestamp", .num r.timestamp), ("channel", .str r.channel),
        ("text", .str r.text), ("confidence", .num r.confidence),
        ("alert", .bool r.alert),
        ("alert_keywords", .arr (r.alert_keywords.map Json.str))]

/-- The keys of a JSON object. -/
def jsonKeys : Json → List String
  | .obj fields => fields.map (fun f => f.1)
  | _ => []

/-- The value stored under a key of a JSON object. -/
def jsonField (j : Json) (k : String) : Option Json :=
  match j with
  | .obj fields => (fields.find? (fun f => f.1 == k)).map (fun f => f.2)
  | _ => none

/-- Modelled from README_BACKEND.md's data layout: appending one record
writes one line into the transcripts partition of its capture date and,
when the record is an alert, one line into the separate alerts partition
of that date (`data/alerts/alerts_DATE.jsonl`). Entries are
(date, written-to-alerts-partition?, line). -/
def partitionWrites (r : StoredRecord) : List (Nat × Bool × Json) :=
  [(dateOf r.timestamp, false, recordToJson r)]
    ++ (if r.alert then [(dateOf r.timestamp, true, recordToJson r)] else [])

/-- The on-disk layout documented in README_BACKEND.md (data storage
section): per-date transcript files and per-date alert files. -/
def backendDataLayout : List String :=
  ["data/transcripts/transcript_2025-11-18.jsonl",
   "data/transcripts/transcript_2025-11-19.jsonl",
   "data/alerts/alerts_2025-11-18.jsonl",
   "data/alerts/alerts_2025-11-19.jsonl"]

/-- The append-only log: records in append order. -/
def appendRecord (log : List StoredRecord) (r : StoredRecord) : List StoredRecord :=
  log ++ [r]

/-- Content of the transcripts partition of date `d`: the appended records
whose capture timestamp falls on `d`, in append order. -/
def transcriptsPartition (log : List StoredRecord) (d : Nat) : List StoredRecord :=
  log.filter (fun r => dateOf r.timestamp == d)

/-- Content of the alerts partition of date `d` per the README layout:
the alert records whose capture timestamp falls on `d`. -/
def alertsPartition (log : List StoredRecord) (d : Nat) : List StoredRecord :=
  log.filter (fun r => dateOf r.timestamp == d && r.alert)

/-- Capture-timestamp order on records. -/
def tsLe (a b : StoredRecord) : Prop := a.timestamp ≤ b.timestamp

instance : DecidableRel tsLe := fun a b => Nat.decLe a.timestamp b.timestamp

instance : IsTotal StoredRecord tsLe := ⟨fun a b => Nat.le_total a.timestamp b.timestamp⟩

instance : IsTrans StoredRecord tsLe := ⟨fun _ _ _ h1 h2 => Nat.le_trans h1 h2⟩

/-- Modelled from the spec: `query(dateRange, channel?, limit, offset)` of
the TranscriptStore (absent from the repository): filter the matched date
partitions and optional channel, sort ascending by capture timestamp,
then apply offset and limit. -/
def channelMatches (channel : Option String) (r : StoredRecord) : Bool :=
  match channel with
  | none => true
  | some c => r.channel == c

def queryStore (log : List StoredRecord) (dateStart dateEnd : Nat)
    (channel : Option String) (limit offsetN : Nat) : List StoredRecord :=
  ((List.insertionSort tsLe (log.filter (fun r =>
      decide (dateStart ≤ dateOf r.timestamp) && decide (dateOf r.timestamp ≤ dateEnd) &&
      channelMatches channel r))).drop offsetN).take limit

/-- A designated alert record: the "Mayday, firefighter down" example of
README_BACKEND.md's JSONL section. -/
def maydayRecord : StoredRecord :=
  { timestamp := 1763476262, channel := "Fire Dispatch",
    text := "Mayday, firefighter down", confidence := 97/100,
    alert := true, alert_keywords := ["mayday", "firefighter down"] }

/-- C3 counterexample: appending the documented mayday alert record does
write a line into a separate alerts partition, and the documented file
layout contains dedicated `data/alerts/alerts_DATE.jsonl` files — a
separate alert log exists. -/
theorem alerts_separate_partition_written :
    (partitionWrites maydayRecord).any (fun w => w.2.1) = true
    ∧ "data/alerts/alerts_2025-11-18.jsonl" ∈ backendDataLayout
    ∧ backendDataLayout.any (fun p => startsList "data/alerts/".toList p.toList) = true := by
  refine ⟨by decide, ?_, by decide⟩
  simp [backendDataLayout]

/-- C3 (amended): alerts carry no record shape of their own — the alerts
partition of a date is exactly the alert-flagged filtered view of that
date's transcripts partition — but they ARE additionally materialized
into a separate per-date alerts log: appending a record writes to the
alerts partition iff its alert flag is set. -/
theorem alerts_filtered_view (log : List StoredRecord) (d : Nat) :
    alertsPartition log d = (transcriptsPartition log d).filter (fun r => r.alert)
    ∧ (∀ r : StoredRecord, (partitionWrites r).any (fun w => w.2.1) = r.alert) := by
  constructor
  · rw [alertsPartition, transcriptsPartition, List.filter_filter]
    congr 1
    funext a
    rw [Bool.and_comm]
  · intro r
    rcases r with ⟨ts, ch, tx, cf, al, kw⟩
    cases al <;> simp [partitionWrites]

/-- C5: appending a record writes exactly one line into the transcripts
partition of the calendar date of its capture timestamp (appended at the
end of that partition), and the serialized object carries exactly the
fields timestamp, channel, text, confidence, alert (a boolean) and
alert_keywords (a list of strings). -/
theorem persisted_format_spec (log : List StoredRecord) (r : StoredRecord) :
    ((partitionWrites r).filter (fun w => !w.2.1)) =
      [(dateOf r.timestamp, false, recordToJson r)]
    ∧ transcriptsPartition (appendRecord log r) (dateOf r.timestamp) =
        transcriptsPartition log (dateOf r.timestamp) ++ [r]
    ∧ jsonKeys (recordToJson r) =
        ["timestamp", "channel", "text", "confidence", "alert", "alert_keywords"]
    ∧ jsonField (recordToJson r) "timestamp" = some (.num r.timestamp)
    ∧ jsonField (recordToJson r) "channel" = some (.str r.channel)
    ∧ jsonField (recordToJson r) "text" = some (.str r.text)
    ∧ jsonField (recordToJson r) "confidence" = some (.num r.confidence)
    ∧ jsonField (recordToJson r) "alert" = some (.bool r.alert)
    ∧ jsonField (recordToJson r) "alert_keywords" =
        some (.arr (r.alert_keywords.map Json.str)) := by
  refine ⟨?_, ?_, rfl, rfl, rfl, rfl, rfl, rfl, rfl⟩
  · rcases r with ⟨ts, ch, tx, cf, al, kw⟩
    cases al <;> simp [partitionWrites]
  · rw [transcriptsPartition, appendRecord, List.filter_append,
        transcriptsPartition]
    simp

/-- A small out-of-order log for exercising the store theorems. -/
def demoLog : List StoredRecord :=
  [{ timestamp := 200000, channel := "a", text := "t1", confidence := 1,
     alert := false, alert_keywords := [] },
   { timestamp := 50000, channel := "b", text := "t2", confidence := 1,
     alert := false, alert_keywords := [] },
   { timestamp := 120000, channel := "a", text := "t3", confidence := 1,
     alert := true, alert_keywords := ["help"] }]

/-- VAD parameters, in milliseconds. README_BACKEND.md documents
VAD_MIN_SPEECH_DURATION = 0.5 s and VAD_SILENCE_DURATION = 0.8 s; the
forced-flush cap `maxSeg` is the spec's maxSegmentDuration. -/
structure VadConfig where
  minSpeech : Nat
  silenceDur : Nat
  maxSeg : Nat
deriving DecidableEq

/-- One audio frame: its voice/no-voice classification and its duration
in milliseconds (CHUNK_DURATION = 0.1 s gives 100 ms frames). -/
structure Frame where
  voice : Bool
  dur : Nat
deriving DecidableEq

/-- The per-channel VAD state machine states. `silence` buffers the
current contiguous run of voice frames; `speech` buffers the open
segment; `trailing` additionally accumulates trailing silence. -/
inductive VadState where
  | silence (run : List Frame)
  | speech (buf : List Frame)
  | trailing (buf : List Frame) (sil : List Frame)
deriving DecidableEq

/-- Total duration of a frame list. -/
def durSum (l : List Frame) : Nat := (l.map (fun f => f.dur)).sum

/-- Total speech (voice-classified) duration of a frame list. -/
def speechDur (l : List Frame) : Nat :=
  ((l.filter (fun f => f.voice)).map (fun f => f.dur)).sum

/-- Modelled from the spec: one step of `core/vad_detector.py` (absent
from the repository) per the specified transitions: SILENCE→SPEECH on a
contiguous voice run reaching minSpeech; SPEECH→TRAILING_SILENCE on the
first non-voice frame; TRAILING_SILENCE→SPEECH if voice resumes early
(segment continues); TRAILING_SILENCE→SILENCE once accumulated silence
reaches silenceDur, emitting the buffered segment iff its total speech
duration is at least minSpeech, silently discarding it otherwise; forced
flush in SPEECH at maxSeg. -/
def vadStep (cfg : VadConfig) (st : VadState) (f : Frame) :
    VadState × Option (List Frame) :=
  match st with
  | .silence run =>
      if f.voice then
        let run2 := run ++ [f]
        if cfg.minSpeech ≤ durSum run2 then (.speech run2, none)
        else (.silence run2, none)
      else (.silence [], none)
  | .speech buf =>
      if f.voice then
        let buf2 := buf ++ [f]
        if cfg.maxSeg ≤ durSum buf2 then (.speech [], some buf2)
        else (.speech buf2, none)
      else (.trailing buf [f], none)
  | .trailing buf sil =>
      if f.voice then (.speech (buf ++ sil ++ [f]), none)
      else
        let sil2 := sil ++ [f]
        if cfg.silenceDur ≤ durSum sil2 then
          (.silence [], if cfg.minSpeech ≤ speechDur buf then some buf else none)
        else (.trailing buf sil2, none)

/-- Run the VAD over a frame sequence, collecting emitted segments in
order. -/
def vadRun (cfg : VadConfig) (st : VadState) (frames : List Frame) :
    VadState × List (List Frame) :=
  frames.foldl (fun acc f =>
    let sr := vadStep cfg acc.1 f
    (sr.1, acc.2 ++ (match sr.2 with | some s => [s] | none => []))) (st, [])

/-- Flush on source termination: emit the buffered segment from SPEECH or
TRAILING_SILENCE iff it meets the minimum speech duration. -/
def vadFinish (cfg : VadConfig) (st : VadState) : Option (List Frame) :=
  match st with
  | .silence _ => none
  | .speech buf => if cfg.minSpeech ≤ speechDur buf then some buf else none
  | .trailing buf _ => if cfg.minSpeech ≤ speechDur buf then some buf else none

/-- The documented configuration: minSpeech 0.5 s, silenceDur 0.8 s, and
a forced-flush cap (value not documented; 30 s here). -/
def vadDefault : VadConfig := { minSpeech := 500, silenceDur := 800, maxSeg := 30000 }

/-- `n` consecutive 100 ms frames with the given voice classification. -/
def chunkFrames (v : Bool) (n : Nat) : List Frame :=
  List.replicate n { voice := v, dur := 100 }

/-- 0.3 s of speech-level energy followed by 1.0 s of silence. -/
def shortSpeechTrace : List Frame := chunkFrames true 3 ++ chunkFrames false 10

/-- C7: in TRAILING_SILENCE, a non-voice frame making the accumulated
silence reach silenceDur transitions the VAD to SILENCE and emits the
buffered segment iff its total speech duration is at least minSpeech
(discarding it silently otherwise); concretely, 0.3 s of speech-level
energy (below the 0.5 s minimum) followed by silence emits zero
segments. -/
theorem vad_trailing_to_silence (cfg : VadConfig) (buf sil : List Frame) (f : Frame)
    (hnv : f.voice = false)
    (hth : cfg.silenceDur ≤ durSum (sil ++ [f])) :
    vadStep cfg (.trailing buf sil) f =
      (.silence [], if cfg.minSpeech ≤ speechDur buf then some buf else none)
    ∧ (vadRun vadDefault (.silence []) shortSpeechTrace).2 = [] := by
  constructor
  · simp [vadStep, hnv, hth]
  · decide

theorem vad_trailing_to_silence_holds :
    (Frame.voice { voice := false, dur := 100 } = false
      ∧ vadDefault.silenceDur ≤ durSum (chunkFrames false 7 ++ [{ voice := false, dur := 100 }]))
    ∧ (vadStep vadDefault (.trailing (chunkFrames true 6) (chunkFrames false 7))
          { voice := false, dur := 100 } =
        (.silence [],
          if vadDefault.minSpeech ≤ speechDur (chunkFrames true 6)
          then some (chunkFrames true 6) else none)
        ∧ (vadRun vadDefault (.silence []) shortSpeechTrace).2 = []) :=
  ⟨⟨rfl, by decide⟩,
    vad_trailing_to_silence vadDefault (chunkFrames true 6) (chunkFrames false 7)
      { voice := false, dur := 100 } rfl (by decide)⟩

/-! ## Google Maps loader -/

/-- The browser-visible state `loadGoogleMaps` reads and writes:
`window.google.maps` (an opaque handle), the document's script elements
(by their src), the installed global callbacks, and the configured API
key. -/
structure BrowserWorld where
  googleMaps : Option Nat
  scripts : List String
  callbacks : List String
  apiKey : Option String
deriving DecidableEq

/-- How one call of `loadGoogleMaps` settles (or defers) its promise. -/
inductive LoadOutcome where
  | resolved (m : Nat)
  | rejected (msg : String)
  | awaitingExisting
  | scriptInjected (cb : String)
deriving DecidableEq

/-- The src of the injected Google Maps script element. -/
def mapsScriptSrc (key cb : String) : String :=
  "https://maps.googleapis.com/maps/api/js?key=" ++ key
    ++ "&v=beta&libraries=places,geometry,streetView&callback=" ++ cb

/-- Embedding of `loadGoogleMaps` in frontend utils: resolve immediately
when `window.google.maps` exists; reject when no API key is configured;
poll when a maps script element is already in the document; otherwise
install a timestamped global callback and append the script element. -/
def loadGoogleMaps (w : BrowserWorld) (now : Nat) : BrowserWorld × LoadOutcome :=
  match w.googleMaps with
  | some m => (w, .resolved m)
  | none =>
    match w.apiKey with
    | none => (w, .rejected "VITE_GOOGLE_MAPS_API_KEY environment variable is not set")
    | some key =>
      if w.scripts.any (fun s => hasSub "maps.googleapis.com".toList s.toList) then
        (w, .awaitingExisting)
      else
        let cb := "initGoogleMaps_" ++ toString now
        ({ w with scripts := w.scripts ++ [mapsScriptSrc key cb],
                  callbacks := w.callbacks ++ [cb] },
         .scriptInjected cb)

/-- C9: once `window.google.maps` is present, `loadGoogleMaps` resolves
immediately with it, leaving the whole browser state — in particular the
document's script elements and the installed global callbacks —
unchanged, so repeated calls after a successful load leave the DOM
unchanged. -/
theorem loadGoogleMaps_noop_when_loaded (w : BrowserWorld) (now m : Nat)
    (h : w.googleMaps = some m) :
    loadGoogleMaps w now = (w, .resolved m)
    ∧ (loadGoogleMaps w now).1.scripts = w.scripts
    ∧ (loadGoogleMaps w now).1.callbacks = w.callbacks
    ∧ (loadGoogleMaps (loadGoogleMaps w now).1 (now + 1)).1 = w := by
  have he : loadGoogleMaps w now = (w, .resolved m) := by
    unfold loadGoogleMaps
    rw [h]
  refine ⟨he, by rw [he], by rw [he], ?_⟩
  rw [he]
  have he2 : loadGoogleMaps w (now + 1) = (w, .resolved m) := by
    unfold loadGoogleMaps
    rw [h]
  rw [he2]

theorem loadGoogleMaps_noop_when_loaded_holds :
    (BrowserWorld.googleMaps
        { googleMaps := some 7, scripts := ["app.js"], callbacks := [], apiKey := some "k" }
      = some 7)
    ∧ loadGoogleMaps
        { googleMaps := some 7, scripts := ["app.js"], callbacks := [], apiKey := some "k" } 5 =
      ({ googleMaps := some 7, scripts := ["app.js"], callbacks := [], apiKey := some "k" },
        .resolved 7) :=
  ⟨rfl,
    (loadGoogleMaps_noop_when_loaded
      { googleMaps := some 7, scripts := ["app.js"], callbacks := [], apiKey := some "k" }
      5 7 rfl).1⟩

/-! ## ONEGEO building lookup (NavBar.jsx, getONEGEOBuildingData)

Coordinates and sizes are embedded as rationals; the value of
`Math.cos(lat * π / 180)` is passed in as an explicit parameter `cosd`,
and the `dist < 200` check on the euclidean distance is embedded as the
equivalent `distSq < 40000` on its square (`Math.sqrt` is monotone on
nonnegative inputs). -/

/-- One feature of the parsed ONEGEO response: whether its geometry is a
Polygon, its outer ring `geometry.coordinates[0]` as (lon, lat) pairs,
the parsed integer `building:levels`/`levels` property (none when absent
or not a number), and the numeric `height` property when present. -/
structure OnegeoFeature where
  isPolygon : Bool
  ring : List (ℚ × ℚ)
  levels : Option Int
  heightProp : Option ℚ
deriving DecidableEq

/-- The building description returned to the caller. -/
structure BuildingData where
  floors : Int
  height : ℚ
  width : ℚ
  depth : ℚ
deriving DecidableEq

/-- JS truthiness of the `floors` variable (null/NaN are `none`; 0 is
falsy). -/
def intTruthy : Option Int → Bool
  | some n => !(n == 0)
  | none => false

/-- JS truthiness of the `height` variable. -/
def ratTruthy : Option ℚ → Bool
  | some q => !(q == 0)
  | none => false

/-- JS `a || d` for the numeric-or-null `floors` value. -/
def jsOrInt (o : Option Int) (d : Int) : Int :=
  match o with
  | some n => if n = 0 then d else n
  | none => d

/-- JS `a || d` for the numeric-or-null `height` value. -/
def jsOrRat (o : Option ℚ) (d : ℚ) : ℚ :=
  match o with
  | some q => if q = 0 then d else q
  | none => d

/-- JS `Math.max(...l)` over a nonempty list (0 for the impossible empty
case). -/
def maxQ (l : List ℚ) : ℚ :=
  match l with
  | [] => 0
  | a :: t => t.foldl max a

/-- JS `Math.min(...l)` over a nonempty list. -/
def minQ (l : List ℚ) : ℚ :=
  match l with
  | [] => 0
  | a :: t => t.foldl min a

/-- Centroid of a ring: per-coordinate sums divided by the vertex count. -/
def ringCenter (ring : List (ℚ × ℚ)) : ℚ × ℚ :=
  ((ring.map (fun c => c.1)).sum / (ring.length : ℚ),
   (ring.map (fun c => c.2)).sum / (ring.length : ℚ))

/-- Squared distance (in metres) from the query point to a ring center:
`dLat = (centerLat - lat) * 111000`,
`dLon = (centerLon - lng) * 111000 * cos(lat·π/180)`. -/
def distSq (lat lng cosd : ℚ) (center : ℚ × ℚ) : ℚ :=
  let dLat := (center.2 - lat) * 111000
  let dLon := (center.1 - lng) * 111000 * cosd
  dLat * dLat + dLon * dLon

/-- One step of the closest-building scan: consider the next feature,
keeping the current best (Polygon features only, and only within
`dist < 200`, embedded as `distSq < 40000`). -/
def closerStep (lat lng cosd : ℚ) (best : Option (OnegeoFeature × ℚ))
    (f : OnegeoFeature) : Option (OnegeoFeature × ℚ) :=
  if f.isPolygon && !f.ring.isEmpty then
    let d := distSq lat lng cosd (ringCenter f.ring)
    match best with
    | none => if d < 40000 then some (f, d) else none
    | some gd => if d < gd.2 ∧ d < 40000 then some (f, d) else some gd
  else best

/-- The closest-building scan: walk the features, keeping the Polygon
feature with the least center distance. -/
def selectClosest (lat lng cosd : ℚ) (features : List OnegeoFeature) :
    Option OnegeoFeature :=
  (features.foldl (closerStep lat lng cosd) none).map (fun x => x.1)

/-- The floors/height fixup:
`if (floors && !height) height = floors * 3.2;
 else if (height && !floors) floors = Math.max(1, Math.floor(height / 3.2))`. -/
def adjustFloorsHeight (floors : Option Int) (height : Option ℚ) :
    Option Int × Option ℚ :=
  if intTruthy floors && !(ratTruthy height) then
    (floors, floors.map (fun n => (n : ℚ) * (16/5)))
  else if ratTruthy height && !(intTruthy floors) then
    (height.map (fun h => max 1 ⌊h / (16/5)⌋), height)
  else (floors, height)

/-- The per-feature tail of `getONEGEOBuildingData`: parse height (kept
only when positive), apply the floors/height fixup, and when the
geometry is a Polygon with a ring, compute the bbox-derived width/depth
and return the clamped building data. -/
def buildFromFeature (lat cosd : ℚ) (f : OnegeoFeature) : Option BuildingData :=
  let height0 : Option ℚ :=
    match f.heightProp with
    | some h => if 0 < h then some h else none
    | none => none
  let fh := adjustFloorsHeight f.levels height0
  if f.isPolygon && !f.ring.isEmpty then
    let lons := f.ring.map (fun c => c.1)
    let lats := f.ring.map (fun c => c.2)
    let width := (maxQ lons - minQ lons) * 111000 * cosd
    let depth := (maxQ lats - minQ lats) * 111000
    let finalFloors : Int := max 1 (jsOrInt fh.1 3)
    let finalHeight : ℚ := jsOrRat fh.2 ((finalFloors : ℚ) * (16/5))
    some { floors := finalFloors, height := finalHeight,
           width := max 5 (min 30 width), depth := max 5 (min 30 depth) }
  else none

/-- Embedding of `getONEGEOBuildingData` on a parsed response: select the
closest building and build the returned record (transport failures and a
missing API key return null and are elided). -/
def getONEGEOBuildingData (lat lng cosd : ℚ) (features : List OnegeoFeature) :
    Option BuildingData :=
  match selectClosest lat lng cosd features with
  | none => none
  | some f => buildFromFeature lat cosd f

/-- A response feature with `building:levels = "-5"` and no height
property. -/
def negLevelsFeature : OnegeoFeature :=
  { isPolygon := true, ring := [(0, 0), (1/1000, 1/1000)],
    levels := some (-5), heightProp := none }

/-- C10 counterexample: a feature whose `building:levels` parses to -5
and which has no height property is returned with height
-5 × 3.2 = -16, which is not positive. -/
theorem building_height_negative :
    getONEGEOBuildingData 0 0 1 [negLevelsFeature] =
      some { floors := 1, height := -16, width := 30, depth := 30 }
    ∧ ¬ (0 < (-16 : ℚ)) := by
  constructor
  · simp only [getONEGEOBuildingData, selectClosest, closerStep, negLevelsFeature, distSq,
      ringCenter, buildFromFeature, adjustFloorsHeight, intTruthy, ratTruthy, jsOrInt, jsOrRat,
      maxQ, minQ, List.foldl_cons, List.foldl_nil, List.map_cons, List.map_nil,
      List.sum_cons, List.sum_nil, List.isEmpty_cons, List.length_cons, List.length_nil]
    norm_num
  · norm_num

theorem closerStep_cases (lat lng cosd : ℚ) (best : Option (OnegeoFeature × ℚ))
    (f : OnegeoFeature) :
    closerStep lat lng cosd best f = best
    ∨ closerStep lat lng cosd best f = some (f, distSq lat lng cosd (ringCenter f.ring)) := by
  unfold closerStep
  cases best with
  | none =>
    by_cases hc : (f.isPolygon && !f.ring.isEmpty) = true
    · rw [if_pos hc]
      by_cases hd : distSq lat lng cosd (ringCenter f.ring) < 40000
      · exact Or.inr (by simp [hd])
      · exact Or.inl (by simp [hd])
    · rw [if_neg hc]
      exact Or.inl rfl
  | some gd =>
    by_cases hc : (f.isPolygon && !f.ring.isEmpty) = true
    · rw [if_pos hc]
      by_cases hd : distSq lat lng cosd (ringCenter f.ring) < gd.2
          ∧ distSq lat lng cosd (ringCenter f.ring) < 40000
      · exact Or.inr (by simp [hd])
      · exact Or.inl (by simp [hd])
    · rw [if_neg hc]
      exact Or.inl rfl

theorem foldl_closer_mem (lat lng cosd : ℚ) (l : List OnegeoFeature)
    (acc : Option (OnegeoFeature × ℚ)) (x : OnegeoFeature × ℚ)
    (h : l.foldl (closerStep lat lng cosd) acc = some x) :
    acc = some x ∨ x.1 ∈ l := by
  induction l generalizing acc with
  | nil => exact Or.inl h
  | cons f t ih =>
    rw [List.foldl_cons] at h
    rcases ih (closerStep lat lng cosd acc f) h with hstep | hmem
    · rcases closerStep_cases lat lng cosd acc f with he | he
      · exact Or.inl (he ▸ hstep)
      · rw [he] at hstep
        have : x.1 = f := by
          have := Option.some.injEq _ _ ▸ hstep
          rw [← this]
        exact Or.inr (this ▸ List.mem_cons_self f t)
    · exact Or.inr (List.mem_cons_of_mem f hmem)

theorem selectClosest_mem (lat lng cosd : ℚ) (features : List OnegeoFeature)
    (f : OnegeoFeature) (h : selectClosest lat lng cosd features = some f) :
    f ∈ features := by
  unfold selectClosest at h
  rcases Option.map_eq_some'.mp h with ⟨x, hx, hxf⟩
  rcases foldl_closer_mem lat lng cosd features none x hx with hc | hm
  · cases hc
  · exact hxf ▸ hm

theorem adjusted_height_pos (lv : Option Int) (h0 : Option ℚ)
    (hlv : ∀ n : Int, lv = some n → 0 ≤ n)
    (hh0 : ∀ q : ℚ, h0 = some q → 0 < q) :
    ∀ q : ℚ, (adjustFloorsHeight lv h0).2 = some q → 0 < q := by
  intro q hq
  unfold adjustFloorsHeight at hq
  split_ifs at hq with h1 h2
  · cases lv with
    | none => simp [intTruthy] at h1
    | some n =>
      simp only [Option.map_some'] at hq
      have hn0 : n ≠ 0 := by
        by_contra hcon
        subst hcon
        simp [intTruthy] at h1
      have hnn : 0 ≤ n := hlv n rfl
      have hone : 1 ≤ n := lt_of_le_of_ne hnn (Ne.symm hn0)
      have : q = (n : ℚ) * (16/5) := (Option.some.injEq _ _ ▸ hq).symm
      rw [this]
      have : (1 : ℚ) ≤ (n : ℚ) := by exact_mod_cast hone
      nlinarith
  · exact hh0 q hq
  · exact hh0 q hq

theorem jsOrRat_pos (o : Option ℚ) (d : ℚ) (hd : 0 < d)
    (ho : ∀ q : ℚ, o = some q → 0 < q) : 0 < jsOrRat o d := by
  cases o with
  | none => simpa [jsOrRat] using hd
  | some q =>
    simp only [jsOrRat]
    split_ifs with hz
    · exact hd
    · exact ho q rfl

theorem buildFromFeature_bounds (lat cosd : ℚ) (f : OnegeoFeature) (b : BuildingData)
    (h : buildFromFeature lat cosd f = some b) :
    1 ≤ b.floors ∧ 5 ≤ b.width ∧ b.width ≤ 30 ∧ 5 ≤ b.depth ∧ b.depth ≤ 30
    ∧ ((∀ n : Int, f.levels = some n → 0 ≤ n) → 0 < b.height) := by
  unfold buildFromFeature at h
  split_ifs at h with hc
  · simp only [Option.some.injEq] at h
    subst h
    refine ⟨le_max_left 1 _, le_max_left 5 _, ?_, le_max_left 5 _, ?_, ?_⟩
    · exact max_le (by norm_num) (min_le_left 30 _)
    · exact max_le (by norm_num) (min_le_left 30 _)
    · intro hlv
      apply jsOrRat_pos
      · have h1 : (1 : Int) ≤ max 1 (jsOrInt (adjustFloorsHeight f.levels
            (match f.heightProp with
             | some hgt => if 0 < hgt then some hgt else none
             | none => none)).1 3) := le_max_left 1 _
        have h1q : (1 : ℚ) ≤ ((max 1 (jsOrInt (adjustFloorsHeight f.levels
            (match f.heightProp with
             | some hgt => if 0 < hgt then some hgt else none
             | none => none)).1 3) : Int) : ℚ) := by exact_mod_cast h1
        nlinarith
      · apply adjusted_height_pos f.levels _ hlv
        intro q hq
        cases hp : f.heightProp with
        | none => rw [hp] at hq; cases hq
        | some hgt =>
          rw [hp] at hq
          simp only at hq
          split_ifs at hq with hpos
          have : q = hgt := (Option.some.injEq _ _ ▸ hq).symm
          rw [this]; exact hpos

/-- C10 (amended): whenever `getONEGEOBuildingData` returns a building
description, its floors count is at least 1 and its width and depth lie
in [5, 30] for every response; its height is positive provided no
feature's parsed `building:levels` value is negative — a negative levels
property (with no height property) propagates as a negative height. -/
theorem building_data_bounds (lat lng cosd : ℚ) (features : List OnegeoFeature)
    (b : BuildingData)
    (h : getONEGEOBuildingData lat lng cosd features = some b) :
    1 ≤ b.floors ∧ 5 ≤ b.width ∧ b.width ≤ 30 ∧ 5 ≤ b.depth ∧ b.depth ≤ 30
    ∧ ((∀ f ∈ features, ∀ n : Int, f.levels = some n → 0 ≤ n) → 0 < b.height) := by
  unfold getONEGEOBuildingData at h
  cases hsel : selectClosest lat lng cosd features with
  | none => rw [hsel] at h; cases h
  | some f =>
    rw [hsel] at h
    obtain ⟨h1, h2, h3, h4, h5, h6⟩ := buildFromFeature_bounds lat cosd f b h
    refine ⟨h1, h2, h3, h4, h5, ?_⟩
    intro hall
    exact h6 (fun n hn => hall f (selectClosest_mem lat lng cosd features f hsel) n hn)

/-- A well-formed response feature with two floors and no height
property. -/
def posLevelsFeature : OnegeoFeature :=
  { isPolygon := true, ring := [(0, 0), (1/1000, 1/1000)],
    levels := some 2, heightProp := none }

theorem building_data_bounds_holds :
    getONEGEOBuildingData 0 0 1 [posLevelsFeature] =
      some { floors := 2, height := 32/5, width := 30, depth := 30 }
    ∧ (1 ≤ ({ floors := 2, height := 32/5, width := 30, depth := 30 } : BuildingData).floors
        ∧ 5 ≤ ({ floors := 2, height := 32/5, width := 30, depth := 30 } : BuildingData).width
        ∧ ({ floors := 2, height := 32/5, width := 30, depth := 30 } : BuildingData).width ≤ 30
        ∧ 5 ≤ ({ floors := 2, height := 32/5, width := 30, depth := 30 } : BuildingData).depth
        ∧ ({ floors := 2, height := 32/5, width := 30, depth := 30 } : BuildingData).depth ≤ 30
        ∧ ((∀ f ∈ [posLevelsFeature], ∀ n : Int, f.levels = some n → 0 ≤ n) →
            0 < ({ floors := 2, height := 32/5, width := 30, depth := 30 } : BuildingData).height)) := by
  have hc : getONEGEOBuildingData 0 0 1 [posLevelsFeature] =
      some { floors := 2, height := 32/5, width := 30, depth := 30 } := by
    simp only [getONEGEOBuildingData, selectClosest, closerStep, posLevelsFeature, distSq,
      ringCenter, buildFromFeature, adjustFloorsHeight, intTruthy, ratTruthy, jsOrInt, jsOrRat,
      maxQ, minQ, List.foldl_cons, List.foldl_nil, List.map_cons, List.map_nil,
      List.sum_cons, List.sum_nil, List.isEmpty_cons, List.length_cons, List.length_nil]
    norm_num
  exact ⟨hc, building_data_bounds 0 0 1 [posLevelsFeature] _ hc⟩

end FireDept
